import Mathlib

/-!
Verification development for the crypto-futures-advisor repository.

Numbers: JavaScript numbers are modelled by exact rationals (ℚ); timestamps
(epoch milliseconds, the value of Date.parse on a stored ISO string) by ℤ.
Display-only data (reason strings, invalidation strings, alert message
text built with toFixed, free-form metadata) is not modelled: no claim
depends on it.  Each definition mirrors one function of the source;
JavaScript truthiness tests on numbers are modelled as explicit
zero/None tests, and the nullish-coalescing operator as Option.getD.
-/

namespace CryptoAdvisor

/-- Candle, from src/apps/api/src/domain/indicators/candles.ts.
The field `open` of the source is called `opn` (keyword in Lean). -/
structure Candle where
  openTime : Int
  opn : ℚ
  high : ℚ
  low : ℚ
  close : ℚ
  volume : ℚ
  closeTime : Int
deriving DecidableEq

inductive TrendDirection where
  | UP
  | DOWN
  | NEUTRAL
deriving DecidableEq

inductive SetupDirection where
  | LONG
  | SHORT
deriving DecidableEq

inductive SetupStrategy where
  | BREAKOUT_RETEST
  | TREND_PULLBACK
  | CONTINUATION
deriving DecidableEq

inductive Timeframe where
  | m15
  | h1
deriving DecidableEq

structure IndicatorSnapshot where
  atr14 : Option ℚ
  rsi14 : Option ℚ
  sma20 : Option ℚ
  sma50 : Option ℚ
deriving DecidableEq

structure DetectorInput where
  symbol : String
  timeframe : Timeframe
  trend4h : TrendDirection
  candles : List Candle
  indicators : IndicatorSnapshot
  createdAt : String
  maxLeverage : ℚ
  targetRoiPct : ℚ
deriving DecidableEq

/-- SetupCandidate (the fields used by the detectors; the display-only
`reasons` and `invalidation` string lists are omitted). -/
structure SetupCandidate where
  symbol : String
  timeframe : Timeframe
  trend4h : TrendDirection
  direction : SetupDirection
  strategy : SetupStrategy
  score : ℤ
  entry : ℚ
  entryZone : Option (ℚ × ℚ)
  stopLoss : ℚ
  takeProfit : ℚ
  rr : Option ℚ
  createdAt : String
deriving DecidableEq

/-- sma(values, period) of candles.ts. -/
def sma (values : List ℚ) (period : Nat) : Option ℚ :=
  if period = 0 then none
  else if values.length < period then none
  else some (((values.drop (values.length - period)).foldl (· + ·) 0) / (period : ℚ))

/-- JavaScript Math.round: round half toward positive infinity. -/
def jsRound (x : ℚ) : ℤ := ⌊x + 1 / 2⌋

/-- clampScore of detectors.ts: Math.max(0, Math.min(100, Math.round(score))). -/
def clampScore (score : ℚ) : ℤ := max 0 (min 100 (jsRound score))

/-- rrLong of detectors.ts. -/
def rrLong (entry stop tp : ℚ) : Option ℚ :=
  let risk := entry - stop
  let reward := tp - entry
  if risk ≤ 0 ∨ reward ≤ 0 then none else some (reward / risk)

/-- rrShort of detectors.ts. -/
def rrShort (entry stop tp : ℚ) : Option ℚ :=
  let risk := stop - entry
  let reward := entry - tp
  if risk ≤ 0 ∨ reward ≤ 0 then none else some (reward / risk)

/-- takeProfitFromTarget of detectors.ts. -/
def takeProfitFromTarget (entry : ℚ) (dir : SetupDirection) (maxLeverage targetRoiPct : ℚ) : ℚ :=
  let movePct := targetRoiPct / max 1 maxLeverage / 100
  match dir with
  | .LONG => entry * (1 + movePct)
  | .SHORT => entry * (1 - movePct)

/-- tolerance of detectors.ts; `params.atr14 ? params.atr14 * 0.25 : 0` is a
truthiness test, so a zero ATR gives no ATR-based component. -/
def tolerance (lastClose : ℚ) (atr14 : Option ℚ) : ℚ :=
  let pct := lastClose * 0.0015
  let atrBased := match atr14 with
    | some a => if a = 0 then 0 else a * 0.25
    | none => 0
  max pct atrBased

/-- volumeBoost of detectors.ts. -/
def volumeBoost (candles : List Candle) : ℚ :=
  if candles.length < 25 then 0
  else
    let vols := candles.map (fun c => c.volume)
    let volSma20 := sma vols 20
    let lastVol := vols.getLast?.getD 0
    match volSma20 with
    | none => 0
    | some v => if v ≤ 0 then 0 else if v * 1.2 < lastVol then 5 else 0

/-- scoreBase of detectors.ts (score component only; the reason strings are
display-only). -/
def scoreBase (trendAligned : Bool) (rr : Option ℚ) (rsi14 : Option ℚ)
    (dir : SetupDirection) (candles : List Candle) : ℚ :=
  let s1 : ℚ := if trendAligned then 45 + 20 else 45 - 20
  let s2 := s1 + (match rr with
    | none => 0
    | some r =>
      if 2.5 ≤ r then 18 else if 2 ≤ r then 14 else if 1.5 ≤ r then 10
      else if 1.2 ≤ r then 6 else 0)
  let s3 := s2 + (match rsi14 with
    | none => 0
    | some x =>
      match dir with
      | .LONG => if 45 ≤ x ∧ x ≤ 65 then 10 else if 75 < x then -6 else 0
      | .SHORT => if 35 ≤ x ∧ x ≤ 55 then 10 else if x < 25 then -6 else 0)
  s3 + volumeBoost candles

/-- Math.max over the highs of a candle slice (call sites pass a nonempty
slice). -/
def maxHighOf : List Candle → ℚ
  | [] => 0
  | c :: rest => rest.foldl (fun m x => max m x.high) c.high

/-- Math.min over the lows of a candle slice (call sites pass a nonempty
slice). -/
def minLowOf : List Candle → ℚ
  | [] => 0
  | c :: rest => rest.foldl (fun m x => min m x.low) c.low

/-- One iteration of the breakout-search loop of detectBreakoutRetest
(detectors.ts lines 210-227); the loop state is the pair
(breakoutLevel, dir), both initially null.  `candles.slice(i - 20, i)`
is `(candles.drop (i - 20)).take 20`, and the loop skips indices with
`i - basePeriod < 0`. -/
def brStep (wantLong wantShort : Bool) (candles : List Candle)
    (st : Option ℚ × Option SetupDirection) (i : Nat) : Option ℚ × Option SetupDirection :=
  if i < 20 then st
  else
    match candles[i]? with
    | none => st
    | some c =>
      let prior := (candles.drop (i - 20)).take 20
      let maxHigh := maxHighOf prior
      let minLow := minLowOf prior
      let st1 := if wantLong ∧ maxHigh * (1 + 0.001) < c.close
        then (some maxHigh, some SetupDirection.LONG) else st
      if wantShort ∧ c.close < minLow * (1 - 0.001)
        then (some minLow, some SetupDirection.SHORT) else st1

/-- detectBreakoutRetest of detectors.ts.  The `!breakoutLevel || !dir`
truthiness test is the match on the loop state plus the zero test. -/
def detectBreakoutRetest (input : DetectorInput) : List SetupCandidate :=
  let candles := input.candles
  let indicators := input.indicators
  if candles.length < 40 then []
  else
    let wantLong : Bool := decide (input.trend4h = TrendDirection.UP)
    let wantShort : Bool := decide (input.trend4h = TrendDirection.DOWN)
    if ¬ (wantLong ∨ wantShort) then []
    else
      match candles.getLast? with
      | none => []
      | some current =>
        let tol := tolerance current.close indicators.atr14
        let scan := ((List.range 12).map (fun k => candles.length - 13 + k)).foldl
          (brStep wantLong wantShort candles) (none, none)
        match scan with
        | (some breakoutLevel, some dir) =>
          if breakoutLevel = 0 then []
          else
            let retestOk : Bool :=
              match dir with
              | .LONG => decide (current.low ≤ breakoutLevel + tol ∧
                  breakoutLevel - tol ≤ current.close ∧
                  current.close ≤ breakoutLevel + tol * 2 ∧
                  current.opn ≤ current.close)
              | .SHORT => decide (breakoutLevel - tol ≤ current.high ∧
                  current.close ≤ breakoutLevel + tol ∧
                  breakoutLevel - tol * 2 ≤ current.close ∧
                  current.close ≤ current.opn)
            if ¬ retestOk then []
            else
              let entry := breakoutLevel
              let tp := takeProfitFromTarget entry dir input.maxLeverage input.targetRoiPct
              let stopDistance := (indicators.atr14.getD tol) * 1.5
              let stopLoss := match dir with
                | .LONG => entry - stopDistance
                | .SHORT => entry + stopDistance
              let rr := match dir with
                | .LONG => rrLong entry stopLoss tp
                | .SHORT => rrShort entry stopLoss tp
              let base := scoreBase true rr indicators.rsi14 dir candles
              [{ symbol := input.symbol, timeframe := input.timeframe,
                 trend4h := input.trend4h, direction := dir,
                 strategy := .BREAKOUT_RETEST, score := clampScore (base + 10),
                 entry := entry,
                 entryZone := some (entry - tol * 0.5, entry + tol * 0.5),
                 stopLoss := stopLoss, takeProfit := tp, rr := rr,
                 createdAt := input.createdAt }]
        | _ => []

/-- detectTrendPullback of detectors.ts.  `!sma20v || !sma50v` is the match
on the snapshot values plus the zero tests. -/
def detectTrendPullback (input : DetectorInput) : List SetupCandidate :=
  let candles := input.candles
  let indicators := input.indicators
  if candles.length < 60 then []
  else if ¬ (input.trend4h = TrendDirection.UP ∨ input.trend4h = TrendDirection.DOWN) then []
  else
    match candles[candles.length - 1]?, candles[candles.length - 2]? with
    | some current, some prev =>
      let tol := tolerance current.close indicators.atr14
      let wantLong : Bool := decide (input.trend4h = TrendDirection.UP)
      let dir : SetupDirection := if wantLong then .LONG else .SHORT
      match indicators.sma20, indicators.sma50 with
      | some sma20v, some sma50v =>
        if sma20v = 0 ∨ sma50v = 0 then []
        else
          let near20 : Bool := if wantLong then decide (current.low ≤ sma20v + tol)
            else decide (sma20v - tol ≤ current.high)
          let near50 : Bool := if wantLong then decide (current.low ≤ sma50v + tol)
            else decide (sma50v - tol ≤ current.high)
          let reclaim : Bool := if wantLong then decide (sma20v ≤ current.close)
            else decide (current.close ≤ sma20v)
          let momentum : Bool := if wantLong then decide (current.opn ≤ current.close)
            else decide (current.close ≤ current.opn)
          let pullbackCandle : Bool := if wantLong then decide (prev.close < prev.opn)
            else decide (prev.opn < prev.close)
          let rsiOk : Bool := match indicators.rsi14 with
            | none => true
            | some x => if wantLong then decide (40 ≤ x ∧ x ≤ 65)
                else decide (35 ≤ x ∧ x ≤ 60)
          if ¬ (reclaim ∧ momentum ∧ pullbackCandle ∧ rsiOk ∧ (near20 ∨ near50)) then []
          else
            let entry := current.close
            let stopDistance := (indicators.atr14.getD tol) * 1.2
            let stopLoss := if wantLong then current.low - stopDistance
              else current.high + stopDistance
            let tp := takeProfitFromTarget entry dir input.maxLeverage input.targetRoiPct
            let rr := if wantLong then rrLong entry stopLoss tp else rrShort entry stopLoss tp
            let base := scoreBase true rr indicators.rsi14 dir candles
            [{ symbol := input.symbol, timeframe := input.timeframe,
               trend4h := input.trend4h, direction := dir,
               strategy := .TREND_PULLBACK, score := clampScore (base + 8),
               entry := entry, entryZone := none,
               stopLoss := stopLoss, takeProfit := tp, rr := rr,
               createdAt := input.createdAt }]
      | _, _ => []
    | _, _ => []

/-- detectContinuation of detectors.ts.  `candles.slice(-lookback - 1, -1)`
is `(candles.drop (candles.length - 21)).take 20`. -/
def detectContinuation (input : DetectorInput) : List SetupCandidate :=
  let candles := input.candles
  let indicators := input.indicators
  if candles.length < 80 then []
  else if ¬ (input.trend4h = TrendDirection.UP ∨ input.trend4h = TrendDirection.DOWN) then []
  else
    match candles.getLast? with
    | none => []
    | some current =>
      match indicators.sma20, indicators.sma50 with
      | some sma20v, some sma50v =>
        if sma20v = 0 ∨ sma50v = 0 then []
        else
          let wantLong : Bool := decide (input.trend4h = TrendDirection.UP)
          let dir : SetupDirection := if wantLong then .LONG else .SHORT
          let maAligned : Bool := if wantLong then decide (sma50v < sma20v)
            else decide (sma20v < sma50v)
          if ¬ maAligned then []
          else if candles.length < 22 then []
          else
            let prior := (candles.drop (candles.length - 21)).take 20
            let maxHigh := maxHighOf prior
            let minLow := minLowOf prior
            let breakoutOk : Bool := if wantLong
              then decide (maxHigh * (1 + 0.001) < current.close)
              else decide (current.close < minLow * (1 - 0.001))
            if ¬ breakoutOk then []
            else
              let entry := current.close
              let stopDistance := (indicators.atr14.getD (entry * 0.002)) * 1.8
              let stopLoss := if wantLong then entry - stopDistance else entry + stopDistance
              let tp := takeProfitFromTarget entry dir input.maxLeverage input.targetRoiPct
              let rr := if wantLong then rrLong entry stopLoss tp else rrShort entry stopLoss tp
              let base := scoreBase true rr indicators.rsi14 dir candles
              [{ symbol := input.symbol, timeframe := input.timeframe,
                 trend4h := input.trend4h, direction := dir,
                 strategy := .CONTINUATION, score := clampScore (base + 6),
                 entry := entry, entryZone := none,
                 stopLoss := stopLoss, takeProfit := tp, rr := rr,
                 createdAt := input.createdAt }]
      | _, _ => []

/-- Deduplication key of runDetectors: the template string
`symbol:timeframe:strategy:direction`, modelled as the tuple of its parts. -/
def dedupKey (s : SetupCandidate) : String × Timeframe × SetupStrategy × SetupDirection :=
  (s.symbol, s.timeframe, s.strategy, s.direction)

/-- One step of the Map-based dedup loop of runDetectors:
`if (!prev || s.score > prev.score) map.set(key, s)`; a JavaScript Map
keeps the original insertion position when an existing key is updated and
appends a fresh key. -/
def dedupStep (m : List ((String × Timeframe × SetupStrategy × SetupDirection) × SetupCandidate))
    (s : SetupCandidate) :
    List ((String × Timeframe × SetupStrategy × SetupDirection) × SetupCandidate) :=
  let key := dedupKey s
  match m.find? (fun p => decide (p.1 = key)) with
  | none => m ++ [(key, s)]
  | some prev =>
    if prev.2.score < s.score then m.map (fun p => if p.1 = key then (key, s) else p) else m

/-- runDetectors of detectors.ts. -/
def runDetectors (input : DetectorInput) : List SetupCandidate :=
  let setups := detectBreakoutRetest input ++ detectTrendPullback input ++ detectContinuation input
  (setups.foldl dedupStep []).map Prod.snd

/-! Concrete candle windows used as witnesses and counterexamples. -/

/-- A flat candle: all prices 10, volume 1. -/
def fillerCandle : Candle :=
  { openTime := 0, opn := 10, high := 10, low := 10, close := 10, volume := 1, closeTime := 0 }

/-- Bar that breaks the prior 20-bar high of 10 (close 11 > 10 × 1.001). -/
def breakoutCandle : Candle :=
  { openTime := 0, opn := 10, high := 11, low := 10, close := 11, volume := 1, closeTime := 0 }

/-- Bullish retest bar near the breakout level 10 (close 10 ≥ open 9.9). -/
def retestCandle : Candle :=
  { openTime := 0, opn := 9.9, high := 10.05, low := 9.89, close := 10, volume := 1, closeTime := 0 }

/-- Bullish retest bar whose close 9.99 sits strictly below the breakout
level 10, but within tolerance of it. -/
def retestBelowCandle : Candle :=
  { openTime := 0, opn := 9.98, high := 10.05, low := 9.9, close := 9.99, volume := 1, closeTime := 0 }

/-- 40-bar window: 38 flat bars, a breakout bar, then a retest bar. -/
def exBreakoutWindow : List Candle :=
  List.replicate 38 fillerCandle ++ [breakoutCandle, retestCandle]

/-- Input with atr14 = 0: exercises `indicators.atr14 ?? tol` at a non-null
zero, which makes the stop distance zero. -/
def exC1input : DetectorInput :=
  { symbol := "BTCUSDT", timeframe := .m15, trend4h := .UP,
    candles := exBreakoutWindow,
    indicators := { atr14 := some 0, rsi14 := none, sma20 := none, sma50 := none },
    createdAt := "2026-01-01T00:00:00.000Z", maxLeverage := 10, targetRoiPct := 100 }

/-- The same window with a small positive ATR. -/
def exWitnessInput : DetectorInput :=
  { exC1input with
    indicators := { atr14 := some 0.01, rsi14 := none, sma20 := none, sma50 := none } }

/-- Positive-ATR input whose retest bar closes below the breakout level. -/
def exC7input : DetectorInput :=
  { exWitnessInput with
    candles := List.replicate 38 fillerCandle ++ [breakoutCandle, retestBelowCandle] }

/-- computeTrend4h of src/apps/api/src/domain/scanner/runScan.ts.
`!sma50 || !sma200` is the match on the two averages plus the zero tests. -/
def computeTrend4h (candles : List Candle) : TrendDirection :=
  let closes := candles.map (fun c => c.close)
  match sma closes 50, sma closes 200 with
  | some sma50v, some sma200v =>
    if sma50v = 0 ∨ sma200v = 0 then .NEUTRAL
    else if sma200v * (1 + 0.001) < sma50v then .UP
    else if sma50v < sma200v * (1 - 0.001) then .DOWN
    else .NEUTRAL
  | _, _ => .NEUTRAL

/-! Position sizing, from src/apps/api/src/domain/risk/positionSizing.ts. -/

structure PositionSizingInput where
  walletEquity : ℚ
  riskPerTradePct : ℚ
  entry : ℚ
  stopLoss : ℚ
  takeProfit : ℚ
  direction : SetupDirection
  maxLeverage : Option ℚ
deriving DecidableEq

structure PositionSizing where
  quantity : ℚ
  notionalUsd : ℚ
  riskUsd : ℚ
  rewardUsd : ℚ
  riskPct : ℚ
  leverageRequired : ℚ
deriving DecidableEq

/-- roundToSignificant of positionSizing.ts:
Math.round(value * 10^decimals) / 10^decimals. -/
def roundToSignificant (value : ℚ) (decimals : Nat) : ℚ :=
  let factor : ℚ := 10 ^ decimals
  (jsRound (value * factor) : ℚ) / factor

/-- calculatePositionSizing of positionSizing.ts.  The guard
`maxLeverage && leverageRequired > maxLeverage` is a truthiness test, so an
absent or zero cap disables clamping. -/
def calculatePositionSizing (input : PositionSizingInput) : Option PositionSizing :=
  if input.walletEquity ≤ 0 ∨ input.entry ≤ 0 ∨ input.stopLoss ≤ 0 ∨ input.takeProfit ≤ 0
  then none
  else
    let stopDistance := |input.entry - input.stopLoss|
    let stopDistancePct := stopDistance / input.entry
    if stopDistancePct ≤ 0 ∨ 1 ≤ stopDistancePct then none
    else
      let riskUsd := input.walletEquity * (input.riskPerTradePct / 100)
      let rawNotionalUsd := riskUsd / stopDistancePct
      let rawLeverageRequired := rawNotionalUsd / input.walletEquity
      let clamped : ℚ × ℚ := match input.maxLeverage with
        | some m =>
          if ¬ m = 0 ∧ m < rawLeverageRequired then (input.walletEquity * m, m)
          else (rawNotionalUsd, rawLeverageRequired)
        | none => (rawNotionalUsd, rawLeverageRequired)
      let notionalUsd := clamped.1
      let leverageRequired := clamped.2
      let quantity := notionalUsd / input.entry
      let actualRiskUsd := quantity * stopDistance
      let tpDistance := |input.takeProfit - input.entry|
      let rewardUsd := quantity * tpDistance
      let riskPct := actualRiskUsd / input.walletEquity * 100
      some { quantity := roundToSignificant quantity 6,
             notionalUsd := roundToSignificant notionalUsd 2,
             riskUsd := roundToSignificant actualRiskUsd 2,
             rewardUsd := roundToSignificant rewardUsd 2,
             riskPct := roundToSignificant riskPct 2,
             leverageRequired := roundToSignificant leverageRequired 2 }

/-! The alert store, from src/apps/api/src/services/alerts/store.ts.
Timestamps are epoch milliseconds (ℤ); a stored ISO string always parses
back to the instant it was created from, so the Number.isFinite guard on
Date.parse is identically true for stored alerts.  The free-form metadata
field is not modelled. -/

inductive AlertType where
  | LIQUIDATION_RISK
  | STOP_PROXIMITY
  | TAKE_PROFIT_PROXIMITY
  | ENTRY_ZONE_HIT
  | NEW_TOP_SETUPS
  | SYSTEM
deriving DecidableEq

inductive AlertSeverity where
  | INFO
  | WARN
  | CRITICAL
deriving DecidableEq

structure Alert where
  id : String
  createdAt : Int
  acknowledgedAt : Option Int
  type : AlertType
  severity : AlertSeverity
  title : String
  message : String
  symbol : Option String
  dedupeKey : String
deriving DecidableEq

/-- CreateAlertInput of store.ts (optional fields; `?? null` / `?? now`
defaults are applied by `AlertStore.add`). -/
structure CreateAlertInput where
  id : Option String := none
  createdAt : Option Int := none
  acknowledgedAt : Option Int := none
  type : AlertType
  severity : AlertSeverity
  title : String
  message : String
  symbol : Option String := none
  dedupeKey : String
deriving DecidableEq

/-- The in-memory state of createAlertStore: the alerts array (newest
first) and the clamped maxAlerts config. -/
structure AlertStoreState where
  alerts : List Alert
  maxAlerts : Nat
deriving DecidableEq

namespace AlertStore

/-- list of store.ts. -/
def list (st : AlertStoreState) (limit : Option Nat) (includeAcknowledged : Bool) : List Alert :=
  let lim := max 1 (min (limit.getD 200) st.maxAlerts)
  let filtered := if includeAcknowledged then st.alerts
    else st.alerts.filter (fun a => a.acknowledgedAt.isNone)
  filtered.take lim

/-- add of store.ts: build the alert, unshift it, trim to the cap,
return the new state with the created alert.  `now` is the current time
and `newId` the fresh randomUUID. -/
def add (st : AlertStoreState) (input : CreateAlertInput) (now : Int) (newId : String) :
    AlertStoreState × Alert :=
  let alert : Alert :=
    { id := input.id.getD newId,
      createdAt := input.createdAt.getD now,
      acknowledgedAt := input.acknowledgedAt,
      type := input.type, severity := input.severity, title := input.title,
      message := input.message, symbol := input.symbol, dedupeKey := input.dedupeKey }
  let alerts1 := alert :: st.alerts
  let alerts2 := if st.maxAlerts < alerts1.length then alerts1.take st.maxAlerts else alerts1
  ({ st with alerts := alerts2 }, alert)

/-- acknowledge of store.ts: find by id; an already-acknowledged alert
is returned untouched (its `acknowledgedAt` is truthy); otherwise the
entry is replaced in place with `acknowledgedAt := now`. -/
def acknowledge (st : AlertStoreState) (id : String) (now : Int) :
    AlertStoreState × Option Alert :=
  match st.alerts.findIdx? (fun a => decide (a.id = id)) with
  | none => (st, none)
  | some idx =>
    match st.alerts[idx]? with
    | none => (st, none)
    | some existing =>
      if existing.acknowledgedAt.isSome then (st, some existing)
      else
        let next := { existing with acknowledgedAt := some now }
        ({ st with alerts := st.alerts.set idx next }, some next)

/-- findRecentByDedupeKey of store.ts: first stored alert (newest first)
with the key whose creation time is within `sinceMs` of `now`. -/
def findRecentByDedupeKey (st : AlertStoreState) (dedupeKey : String) (sinceMs : Int)
    (now : Int) : Option Alert :=
  let since := now - max 0 sinceMs
  st.alerts.find? (fun a => decide (a.dedupeKey = dedupeKey) && decide (since ≤ a.createdAt))

end AlertStore

/-! The alert engine, from the alerts monitor source (src/unnamed/part_014). -/

/-- titleFor of the alerts monitor. -/
def titleFor (type : AlertType) (symbol : Option String) : String :=
  let s := match symbol with
    | some sym => " " ++ sym
    | none => ""
  match type with
  | .LIQUIDATION_RISK => "Liquidation risk" ++ s
  | .STOP_PROXIMITY => "Stop proximity" ++ s
  | .TAKE_PROFIT_PROXIMITY => "Take-profit proximity" ++ s
  | .ENTRY_ZONE_HIT => "Entry zone hit" ++ s
  | .NEW_TOP_SETUPS => "New top setups"
  | .SYSTEM => "System"

/-- severityFor of the alerts monitor. -/
def severityFor (type : AlertType) : AlertSeverity :=
  match type with
  | .LIQUIDATION_RISK => .CRITICAL
  | .STOP_PROXIMITY => .WARN
  | .TAKE_PROFIT_PROXIMITY => .INFO
  | .ENTRY_ZONE_HIT => .INFO
  | .NEW_TOP_SETUPS => .INFO
  | .SYSTEM => .INFO

/-- The arguments the monitor passes to its local createAlert. -/
structure AlertRequest where
  type : AlertType
  symbol : Option String
  message : String
  dedupeKey : String
deriving DecidableEq

/-- createAlert of the alerts monitor: suppress when a recent alert with
the same dedupe key exists, otherwise add.  Returns the new store state
and the created alert (null when suppressed). -/
def createAlert (st : AlertStoreState) (dedupeWindowMs : Int) (req : AlertRequest)
    (now : Int) (newId : String) : AlertStoreState × Option Alert :=
  match AlertStore.findRecentByDedupeKey st req.dedupeKey dedupeWindowMs now with
  | some _ => (st, none)
  | none =>
    let r := AlertStore.add st
      { type := req.type, severity := severityFor req.type,
        title := titleFor req.type req.symbol, message := req.message,
        symbol := req.symbol, dedupeKey := req.dedupeKey } now newId
    (r.1, some r.2)

/-- The alert object the monitor's createAlert stores when it is not
suppressed (store defaults applied). -/
def engineAlert (req : AlertRequest) (now : Int) (newId : String) : Alert :=
  { id := newId, createdAt := now, acknowledgedAt := none, type := req.type,
    severity := severityFor req.type, title := titleFor req.type req.symbol,
    message := req.message, symbol := req.symbol, dedupeKey := req.dedupeKey }

/-! Position-derived liquidation rule, from the alerts monitor and
src/apps/api/src/domain/risk/positionPlan.ts. -/

structure FuturesPosition where
  symbol : String
  positionSide : String
  amount : ℚ
  markPrice : ℚ
  liquidationPrice : ℚ
deriving DecidableEq

inductive PositionDirection where
  | LONG
  | SHORT
  | FLAT
deriving DecidableEq

/-- positionDirection of positionPlan.ts. -/
def positionDirection (p : FuturesPosition) : PositionDirection :=
  if p.positionSide = "LONG" then .LONG
  else if p.positionSide = "SHORT" then .SHORT
  else if 0 < p.amount then .LONG
  else if p.amount < 0 then .SHORT
  else .FLAT

/-- liquidationDistancePct of the alerts monitor (the Number.isFinite
guards are identically true over ℚ). -/
def liquidationDistancePct (dir : PositionDirection) (mark liq : ℚ) : Option ℚ :=
  if mark ≤ 0 then none
  else if liq ≤ 0 then none
  else
    let dist := if dir = .LONG then (mark - liq) / mark else (liq - mark) / mark
    some (dist * 100)

/-- The liquidation-risk branch of checkPositions for a single position:
the position list is filtered on `amount !== 0`, flat directions are
skipped, `if (p.liquidationPrice)` is a truthiness test, and the alert is
attempted iff the distance is at most the configured threshold.  The
message text (toFixed formatting) is display-only and left empty. -/
def liquidationAlertAttempt (p : FuturesPosition) (threshold : ℚ) : Option AlertRequest :=
  if p.amount = 0 then none
  else
    let dir := positionDirection p
    if dir = .FLAT then none
    else if p.liquidationPrice = 0 then none
    else
      match liquidationDistancePct dir p.markPrice p.liquidationPrice with
      | none => none
      | some dist =>
        if dist ≤ threshold then
          some { type := .LIQUIDATION_RISK, symbol := some p.symbol, message := "",
                 dedupeKey := "LIQUIDATION_RISK:" ++ p.symbol ++ ":" ++ p.positionSide }
        else none

/-! The scanner service state machine, from the scanner service source
(createScannerService / runNow).  runNow is async; its guard and its
`finally` are modelled as the entry and exit transitions of one run, with
the awaited body's outcome abstracted as an Except value. -/

structure ScannerRunResponse where
  runAt : String
  results : List SetupCandidate
deriving DecidableEq

structure ScannerState where
  running : Bool
  lastRunAt : Option String
  latest : Option ScannerRunResponse
deriving DecidableEq

/-- The entry of runNow: `if (running) throw new Error("Scanner is already
running."); running = true;`. -/
def runNowEnter (st : ScannerState) : ScannerState × Except String Unit :=
  if st.running then (st, Except.error "Scanner is already running.")
  else ({ st with running := true }, Except.ok ())

/-- The exit of runNow: on success the latest snapshot and lastRunAt are
replaced and the response returned; on a thrown body the state is left
alone; in both cases the `finally` clears the running flag. -/
def runNowExit (st : ScannerState) (outcome : Except String ScannerRunResponse) : ScannerState :=
  match outcome with
  | .ok resp => { running := false, lastRunAt := some resp.runAt, latest := some resp }
  | .error _ => { st with running := false }

/-! Store-operation sequences, for the acknowledgement one-way claim. -/

/-- One public operation of the alert store.  list and
findRecentByDedupeKey do not change the state. -/
inductive StoreOp where
  | listOp (limit : Option Nat) (includeAcknowledged : Bool)
  | addOp (input : CreateAlertInput) (now : Int) (newId : String)
  | ackOp (id : String) (now : Int)
  | findOp (dedupeKey : String) (sinceMs : Int) (now : Int)

/-- The state transition of one store operation. -/
def applyOp (st : AlertStoreState) : StoreOp → AlertStoreState
  | .listOp _ _ => st
  | .addOp input now newId => (AlertStore.add st input now newId).1
  | .ackOp id now => (AlertStore.acknowledge st id now).1
  | .findOp _ _ _ => st

/-- How the position of a stored alert shifts under one operation: add
unshifts one element in front, everything else keeps positions. -/
def shiftIdx (i : Nat) : StoreOp → Nat
  | .addOp _ _ _ => i + 1
  | _ => i

/-- OHLC-consistent candle with positive prices. -/
def ValidCandle (c : Candle) : Prop :=
  0 < c.low ∧ c.low ≤ c.opn ∧ c.opn ≤ c.high ∧ c.low ≤ c.close ∧ c.close ≤ c.high

instance (c : Candle) : Decidable (ValidCandle c) := by
  unfold ValidCandle
  infer_instance

/-! Remaining concrete inputs used by witnesses and counterexamples. -/

/-- The candidate detectBreakoutRetest emits on `exC1input` (zero ATR):
its stop distance is zero, so stopLoss = entry. -/
def exC1cand : SetupCandidate :=
  { symbol := "BTCUSDT", timeframe := .m15, trend4h := .UP, direction := .LONG,
    strategy := .BREAKOUT_RETEST, score := 75, entry := 10,
    entryZone := some (3997/400, 4003/400), stopLoss := 10, takeProfit := 11,
    rr := none, createdAt := "2026-01-01T00:00:00.000Z" }

/-- The candidate detectBreakoutRetest emits on `exWitnessInput`. -/
def exWitnessCand : SetupCandidate :=
  { symbol := "BTCUSDT", timeframe := .m15, trend4h := .UP, direction := .LONG,
    strategy := .BREAKOUT_RETEST, score := 93, entry := 10,
    entryZone := some (3997/400, 4003/400), stopLoss := 1997/200, takeProfit := 11,
    rr := some (200/3), createdAt := "2026-01-01T00:00:00.000Z" }

/-- The candidate detectBreakoutRetest emits on `exC7input` (its retest bar
closes at 9.99, below the breakout level 10). -/
def exC7cand : SetupCandidate :=
  { symbol := "BTCUSDT", timeframe := .m15, trend4h := .UP, direction := .LONG,
    strategy := .BREAKOUT_RETEST, score := 93, entry := 10,
    entryZone := some (3997003/400000, 4002997/400000), stopLoss := 1997/200,
    takeProfit := 11, rr := some (200/3), createdAt := "2026-01-01T00:00:00.000Z" }

/-- A flat candle at price x for the trend classifier examples. -/
def mkCandle (x : ℚ) : Candle :=
  { openTime := 0, opn := x, high := x, low := x, close := x, volume := 1, closeTime := 0 }

/-- 200 closes with 200-bar average exactly 0 and 50-bar average 3. -/
def exTrendCE : List Candle :=
  List.replicate 150 (mkCandle (-1)) ++ List.replicate 50 (mkCandle 3)

/-- 200 closes with 200-bar average 1 and 50-bar average 2. -/
def exTrendW : List Candle :=
  List.replicate 150 (mkCandle (2/3)) ++ List.replicate 50 (mkCandle 2)

/-- Position-sizing input whose raw leverage 1 exceeds the cap 1/8; the cap
is not representable at two decimals. -/
def exC3input : PositionSizingInput :=
  { walletEquity := 100, riskPerTradePct := 1, entry := 100, stopLoss := 99,
    takeProfit := 110, direction := .LONG, maxLeverage := some (1/8) }

/-- Position-sizing input whose raw leverage 1 exceeds the cap 1/10. -/
def exC3winput : PositionSizingInput :=
  { walletEquity := 100, riskPerTradePct := 1, entry := 100, stopLoss := 99,
    takeProfit := 110, direction := .LONG, maxLeverage := some (1/10) }

/-- LONG position 4% from liquidation. -/
def exPosNear : FuturesPosition :=
  { symbol := "BTCUSDT", positionSide := "LONG", amount := 1, markPrice := 100,
    liquidationPrice := 96 }

/-- LONG position 10% from liquidation. -/
def exPosFar : FuturesPosition :=
  { symbol := "BTCUSDT", positionSide := "LONG", amount := 1, markPrice := 100,
    liquidationPrice := 90 }

/-- An empty alert store with the default cap. -/
def exStore : AlertStoreState := { alerts := [], maxAlerts := 1000 }

/-- A liquidation alert request used to trigger createAlert twice. -/
def exReq : AlertRequest :=
  { type := .LIQUIDATION_RISK, symbol := some "BTCUSDT", message := "m",
    dedupeKey := "LIQUIDATION_RISK:BTCUSDT:LONG" }

/-- An already-acknowledged stored alert. -/
def exAckedAlert : Alert :=
  { id := "a1", createdAt := 0, acknowledgedAt := some 5, type := .LIQUIDATION_RISK,
    severity := .CRITICAL, title := "t", message := "m", symbol := some "BTCUSDT",
    dedupeKey := "k1" }

/-- A store holding one acknowledged alert. -/
def exAckedStore : AlertStoreState := { alerts := [exAckedAlert], maxAlerts := 1000 }

/-- Input for the add operation among `exOps`. -/
def exAddInput : CreateAlertInput :=
  { type := .SYSTEM, severity := .INFO, title := "t2", message := "m2",
    dedupeKey := "k2" }

/-- Operations hitting the acknowledged alert: a re-acknowledgement, an
add, a list and a dedupe lookup. -/
def exOps : List StoreOp :=
  [StoreOp.ackOp "a1" 99, StoreOp.addOp exAddInput 100 "a2",
   StoreOp.listOp none false, StoreOp.findOp "k1" 1000 200]

/-- A scanner state with a run in flight. -/
def exRunningScanner : ScannerState :=
  { running := true, lastRunAt := none, latest := none }

/-!
Theorems.  The Batteries rational primitives are restored to their
definitional reducibility so that concrete rational computations can be
settled by kernel evaluation (`decide`).
-/

attribute [local semireducible] Rat.add Rat.sub Rat.mul Rat.inv Rat.ofScientific

set_option maxRecDepth 100000

/-- Claim C6: invoking the scanner's runNow while a run is in progress
fails immediately with the distinguishable "already running" error, does
not start a second run and leaves the state (latest snapshot included)
untouched; and every run exit, successful or thrown, clears the running
flag, so a subsequent runNow is accepted. -/
theorem C6_runNow_guard (st : ScannerState) (outcome : Except String ScannerRunResponse) :
    (st.running = true →
      runNowEnter st = (st, Except.error "Scanner is already running.")) ∧
    (runNowExit st outcome).running = false ∧
    (runNowEnter (runNowExit st outcome)).2 = Except.ok () := by
  refine ⟨fun h => ?_, ?_, ?_⟩
  · simp [runNowEnter, h]
  · cases outcome <;> simp [runNowExit]
  · cases outcome <;> simp [runNowExit, runNowEnter]

/-- Witness for C6 at a running scanner state and a thrown run body. -/
theorem C6_witness :
    runNowEnter exRunningScanner =
      (exRunningScanner, Except.error "Scanner is already running.") ∧
    (runNowEnter (runNowExit exRunningScanner (Except.error "boom"))).2 = Except.ok () :=
  ⟨(C6_runNow_guard exRunningScanner (Except.error "boom")).1 rfl,
   (C6_runNow_guard exRunningScanner (Except.error "boom")).2.2⟩

/-- Claim C5: for a non-flat position with positive mark and liquidation
prices, the monitor attempts a liquidation alert iff the direction-aware
distance-to-liquidation percentage is at most the threshold, and any
attempted alert is a LIQUIDATION_RISK alert of CRITICAL severity keyed by
rule type, symbol and position side. -/
theorem C5_liquidation_rule (p : FuturesPosition) (threshold : ℚ)
    (hamt : p.amount ≠ 0) (hdir : positionDirection p ≠ PositionDirection.FLAT)
    (hmark : 0 < p.markPrice) (hliq : 0 < p.liquidationPrice) :
    ((liquidationAlertAttempt p threshold).isSome = true ↔
      (if positionDirection p = PositionDirection.LONG
        then (p.markPrice - p.liquidationPrice) / p.markPrice
        else (p.liquidationPrice - p.markPrice) / p.markPrice) * 100 ≤ threshold) ∧
    (∀ a, liquidationAlertAttempt p threshold = some a →
      a.type = AlertType.LIQUIDATION_RISK ∧
      severityFor a.type = AlertSeverity.CRITICAL ∧
      a.symbol = some p.symbol ∧
      a.dedupeKey = "LIQUIDATION_RISK:" ++ p.symbol ++ ":" ++ p.positionSide) := by
  have h1 : ¬ p.liquidationPrice = 0 := ne_of_gt hliq
  have h2 : ¬ p.markPrice ≤ 0 := not_le.mpr hmark
  have h3 : ¬ p.liquidationPrice ≤ 0 := not_le.mpr hliq
  constructor
  · simp only [liquidationAlertAttempt, liquidationDistancePct, if_neg hamt, if_neg hdir,
      if_neg h1, if_neg h2, if_neg h3]
    split
    · simp_all
    · simp_all
  · intro a ha
    simp only [liquidationAlertAttempt, liquidationDistancePct, if_neg hamt, if_neg hdir,
      if_neg h1, if_neg h2, if_neg h3] at ha
    split at ha
    all_goals split at ha
    all_goals first
      | (obtain rfl : _ = a := Option.some.inj ha; exact ⟨rfl, rfl, rfl, rfl⟩)
      | exact absurd ha (by simp)

/-- Witness for C5: a LONG position with mark 100 and liquidation 96 at
threshold 5 percent attempts the alert (distance 4 percent), while
liquidation 90 (distance 10 percent) does not. -/
theorem C5_witness :
    (liquidationAlertAttempt exPosNear 5).isSome = true ∧
    (liquidationAlertAttempt exPosFar 5).isSome = false := by
  have hnear := (C5_liquidation_rule exPosNear 5 (by decide) (by decide)
    (by decide) (by decide)).1
  have hfar := (C5_liquidation_rule exPosFar 5 (by decide) (by decide)
    (by decide) (by decide)).1
  refine ⟨hnear.mpr (by decide), ?_⟩
  have : ¬ ((if positionDirection exPosFar = PositionDirection.LONG
      then (exPosFar.markPrice - exPosFar.liquidationPrice) / exPosFar.markPrice
      else (exPosFar.liquidationPrice - exPosFar.markPrice) / exPosFar.markPrice) * 100 ≤ 5) := by
    decide
  exact Bool.eq_false_iff.mpr (fun hh => this (hfar.mp hh))

/-- Claim C3 as stated is false: with cap 1/8 (not representable at two
decimal places), positive inputs, stop-distance fraction 1/100 and raw
leverage 1 exceeding the cap, the returned leverageRequired is 0.13, not
the cap. -/
theorem C3_counterexample :
    (1/8 : ℚ) < 100 * ((1:ℚ) / 100) / (|(100:ℚ) - 99| / 100) / 100 ∧
    (0:ℚ) < |(100:ℚ) - 99| / 100 ∧ |(100:ℚ) - 99| / 100 < 1 ∧
    (calculatePositionSizing exC3input).map PositionSizing.leverageRequired = some 0.13 ∧
    (0.13 : ℚ) ≠ 1/8 := by
  decide

/-- Claim C3 (amended): when the raw leverage exceeds a positive cap, the
returned leverageRequired is the cap rounded to two decimal places (so
exactly the cap whenever 100 × cap is an integer) and notionalUsd is
walletEquity × cap rounded to two decimal places. -/
theorem C3_amended (input : PositionSizingInput) (cap : ℚ)
    (hml : input.maxLeverage = some cap) (hcap : 0 < cap)
    (hw : 0 < input.walletEquity) (he : 0 < input.entry)
    (hsl : 0 < input.stopLoss) (htp : 0 < input.takeProfit)
    (hsd0 : 0 < |input.entry - input.stopLoss| / input.entry)
    (hsd1 : |input.entry - input.stopLoss| / input.entry < 1)
    (hraw : cap < input.walletEquity * (input.riskPerTradePct / 100) /
      (|input.entry - input.stopLoss| / input.entry) / input.walletEquity) :
    ∃ r, calculatePositionSizing input = some r ∧
      r.leverageRequired = roundToSignificant cap 2 ∧
      r.notionalUsd = roundToSignificant (input.walletEquity * cap) 2 := by
  have g1 : ¬ (input.walletEquity ≤ 0 ∨ input.entry ≤ 0 ∨ input.stopLoss ≤ 0 ∨
      input.takeProfit ≤ 0) := by
    push_neg
    exact ⟨hw, he, hsl, htp⟩
  have g2 : ¬ (|input.entry - input.stopLoss| / input.entry ≤ 0 ∨
      1 ≤ |input.entry - input.stopLoss| / input.entry) := by
    push_neg
    exact ⟨hsd0, hsd1⟩
  simp only [calculatePositionSizing, hml, if_neg g1, if_neg g2,
    if_pos (And.intro (ne_of_gt hcap) hraw)]
  exact ⟨_, rfl, rfl, rfl⟩

/-- Witness for the amended C3 at cap 1/10 and raw leverage 1. -/
theorem C3_witness :
    ∃ r, calculatePositionSizing exC3winput = some r ∧
      r.leverageRequired = roundToSignificant (1/10) 2 ∧
      r.notionalUsd = roundToSignificant (100 * (1/10)) 2 := by
  exact C3_amended exC3winput (1/10) rfl (by decide) (by decide) (by decide) (by decide)
    (by decide) (by decide) (by decide) (by decide)

/-- Claim C4 as stated is false at an available 200-bar average of exactly
zero: sma50 = 3 is positive and exceeds sma200 × 1.001 = 0, yet the
classifier returns NEUTRAL, because a zero average is treated as
unavailable by the truthiness test. -/
theorem C4_counterexample :
    sma (exTrendCE.map (fun c => c.close)) 50 = some 3 ∧
    sma (exTrendCE.map (fun c => c.close)) 200 = some 0 ∧
    (0:ℚ) * (1 + 0.001) < 3 ∧
    computeTrend4h exTrendCE = TrendDirection.NEUTRAL := by
  decide

/-- Claim C4 (amended): when both averages are available and positive, the
classification is UP exactly when sma50 > sma200 × 1.001, DOWN exactly
when sma50 < sma200 × 0.999, and NEUTRAL exactly on the band in between —
so over positive sma200 the sweep transitions UP, NEUTRAL, DOWN once
each. -/
theorem C4_amended (candles : List Candle) (a b : ℚ)
    (h50 : sma (candles.map (fun c => c.close)) 50 = some a)
    (h200 : sma (candles.map (fun c => c.close)) 200 = some b)
    (ha : 0 < a) (hb : 0 < b) :
    (computeTrend4h candles = TrendDirection.UP ↔ b * (1 + 0.001) < a) ∧
    (computeTrend4h candles = TrendDirection.DOWN ↔ a < b * (1 - 0.001)) ∧
    (computeTrend4h candles = TrendDirection.NEUTRAL ↔
      (b * (1 - 0.001) ≤ a ∧ a ≤ b * (1 + 0.001))) := by
  have hz : ¬ (a = 0 ∨ b = 0) := by
    push_neg
    exact ⟨ne_of_gt ha, ne_of_gt hb⟩
  simp only [computeTrend4h, h50, h200, if_neg hz]
  split
  · next h1 =>
    refine ⟨iff_of_true rfl h1, iff_of_false (by simp) ?_, iff_of_false (by simp) ?_⟩
    · intro h
      nlinarith
    · intro h
      exact absurd (lt_of_lt_of_le h1 h.2) (lt_irrefl _)
  · split
    · next h1 h2 =>
      refine ⟨iff_of_false (by simp) ?_, iff_of_true rfl h2, iff_of_false (by simp) ?_⟩
      · intro h
        nlinarith
      · intro h
        exact absurd (lt_of_le_of_lt h.1 h2) (lt_irrefl _)
    · next h1 h2 =>
      refine ⟨iff_of_false (by simp) h1, iff_of_false (by simp) h2,
        iff_of_true rfl ⟨not_lt.mp h2, not_lt.mp h1⟩⟩

/-- Witness for the amended C4: sma50 = 2, sma200 = 1 classifies UP. -/
theorem C4_witness :
    computeTrend4h exTrendW = TrendDirection.UP :=
  (C4_amended exTrendW 2 1 (by decide) (by decide) (by decide) (by decide)).1.mpr (by decide)

/-- An unsuppressed createAlert returns the engine alert, and the new
state's alerts list starts with it, followed by previously stored
alerts. -/
theorem createAlert_state_cons (st : AlertStoreState) (w : Int) (req : AlertRequest)
    (now : Int) (newId : String)
    (hfind : AlertStore.findRecentByDedupeKey st req.dedupeKey w now = none)
    (hcap : 0 < st.maxAlerts) :
    (createAlert st w req now newId).2 = some (engineAlert req now newId) ∧
    ∃ rest, ((createAlert st w req now newId).1).alerts = engineAlert req now newId :: rest ∧
      ∀ a ∈ rest, a ∈ st.alerts := by
  simp only [createAlert, hfind, AlertStore.add]
  refine ⟨rfl, ?_⟩
  split
  · obtain ⟨m, hm⟩ : ∃ m, st.maxAlerts = m + 1 :=
      ⟨st.maxAlerts - 1, (Nat.succ_pred_eq_of_pos hcap).symm⟩
    refine ⟨st.alerts.take m, ?_, fun a ha => List.take_subset _ _ ha⟩
    rw [hm, List.take_succ_cons]
    simp [engineAlert]
  · exact ⟨st.alerts, rfl, fun a ha => ha⟩

/-- A suppressed createAlert returns null and leaves the state alone. -/
theorem createAlert_of_found (st : AlertStoreState) (w : Int) (req : AlertRequest)
    (now : Int) (newId : String) (a : Alert)
    (hfind : AlertStore.findRecentByDedupeKey st req.dedupeKey w now = some a) :
    createAlert st w req now newId = (st, none) := by
  simp only [createAlert, hfind]

/-- Claim C2: starting from a store with no alert under the dedupe key,
the first trigger creates an alert; a second trigger within the window
(boundary included) creates nothing and leaves the whole store state
unchanged; a second trigger strictly beyond the window creates a second
alert. -/
theorem C2_dedupe (st : AlertStoreState) (w : Int) (req : AlertRequest) (t1 t2 : Int)
    (id1 id2 : String)
    (hclean : ∀ a ∈ st.alerts, a.dedupeKey ≠ req.dedupeKey)
    (hw : 0 ≤ w) (hcap : 0 < st.maxAlerts) :
    (createAlert st w req t1 id1).2 = some (engineAlert req t1 id1) ∧
    (t2 - t1 ≤ w →
      createAlert (createAlert st w req t1 id1).1 w req t2 id2 =
        ((createAlert st w req t1 id1).1, none)) ∧
    (w < t2 - t1 →
      (createAlert (createAlert st w req t1 id1).1 w req t2 id2).2 =
        some (engineAlert req t2 id2)) := by
  have hfind1 : AlertStore.findRecentByDedupeKey st req.dedupeKey w t1 = none := by
    simp only [AlertStore.findRecentByDedupeKey]
    refine List.find?_eq_none.mpr (fun a ha => ?_)
    simp [hclean a ha]
  obtain ⟨hfst, rest, hcons, hrest⟩ := createAlert_state_cons st w req t1 id1 hfind1 hcap
  have hmaxw : max 0 w = w := max_eq_right hw
  refine ⟨hfst, fun h => ?_, fun h => ?_⟩
  · have hfound : AlertStore.findRecentByDedupeKey (createAlert st w req t1 id1).1
        req.dedupeKey w t2 = some (engineAlert req t1 id1) := by
      simp only [AlertStore.findRecentByDedupeKey, hcons]
      refine List.find?_cons_of_pos _ ?_
      simp only [engineAlert, hmaxw, Bool.and_eq_true, decide_eq_true_eq]
      refine ⟨by trivial, by omega⟩
    exact createAlert_of_found _ _ _ _ _ _ hfound
  · have hfind2 : AlertStore.findRecentByDedupeKey (createAlert st w req t1 id1).1
        req.dedupeKey w t2 = none := by
      simp only [AlertStore.findRecentByDedupeKey, hcons]
      refine List.find?_eq_none.mpr (fun a ha => ?_)
      rcases List.mem_cons.mp ha with rfl | hmem
      · simp only [engineAlert, hmaxw, Bool.and_eq_true, decide_eq_true_eq, not_and]
        intro _
        omega
      · simp [hclean a (hrest a hmem)]
    have hcap2 : 0 < ((createAlert st w req t1 id1).1).maxAlerts := by
      have : ((createAlert st w req t1 id1).1).maxAlerts = st.maxAlerts := by
        simp only [createAlert, hfind1, AlertStore.add]
      rw [this]
      exact hcap
    exact (createAlert_state_cons (createAlert st w req t1 id1).1 w req t2 id2 hfind2 hcap2).1

/-- Witness for C2: an empty store, the default 30-minute window, a second
trigger one second later is suppressed with the state unchanged, and one
an hour later creates a second alert. -/
theorem C2_witness :
    (createAlert exStore 1800000 exReq 0 "id1").2 = some (engineAlert exReq 0 "id1") ∧
    createAlert (createAlert exStore 1800000 exReq 0 "id1").1 1800000 exReq 1000 "id2" =
      ((createAlert exStore 1800000 exReq 0 "id1").1, none) ∧
    (createAlert (createAlert exStore 1800000 exReq 0 "id1").1 1800000 exReq 3600000 "id3").2 =
      some (engineAlert exReq 3600000 "id3") := by
  refine ⟨(C2_dedupe exStore 1800000 exReq 0 1000 "id1" "id2" (by decide) (by decide)
    (by decide)).1, ?_, ?_⟩
  · exact (C2_dedupe exStore 1800000 exReq 0 1000 "id1" "id2" (by decide) (by decide)
      (by decide)).2.1 (by decide)
  · exact (C2_dedupe exStore 1800000 exReq 0 3600000 "id1" "id3" (by decide) (by decide)
      (by decide)).2.2 (by decide)

/-- One store operation, applied to a state where the tracked position
holds an acknowledged alert (or nothing), leaves the shifted position
holding that identical alert or nothing: no operation ever rewrites an
acknowledged alert, and re-acknowledgement returns it untouched. -/
theorem applyOp_tracked (st : AlertStoreState) (op : StoreOp) (i : Nat) (a : Alert)
    (hk : a.acknowledgedAt.isSome = true)
    (h : st.alerts[i]? = some a ∨ st.alerts[i]? = none) :
    (applyOp st op).alerts[shiftIdx i op]? = some a ∨
    (applyOp st op).alerts[shiftIdx i op]? = none := by
  cases op with
  | listOp limit inc => exact h
  | findOp k s n => exact h
  | addOp input now newId =>
    simp only [applyOp, shiftIdx, AlertStore.add]
    split
    · by_cases hlt : i + 1 < st.maxAlerts
      · rw [List.getElem?_take, if_pos hlt, List.getElem?_cons_succ]
        exact h
      · refine Or.inr ?_
        rw [List.getElem?_eq_none_iff, List.length_take]
        exact le_trans (min_le_left _ _) (Nat.le_of_not_lt hlt)
    · rw [List.getElem?_cons_succ]
      exact h
  | ackOp id now =>
    simp only [applyOp, shiftIdx, AlertStore.acknowledge]
    split
    · exact h
    · next idx hidx =>
      split
      · exact h
      · next existing hexist =>
        split
        · exact h
        · next hnotack =>
          by_cases hne : idx = i
          · subst hne
            rcases h with h | h
            · rw [hexist] at h
              obtain rfl : existing = a := Option.some.inj h
              exact absurd hk hnotack
            · rw [hexist] at h
              cases h
          · rw [List.getElem?_set_ne hne]
            exact h

/-- Claim C9: an alert whose acknowledgedAt is set is never mutated by any
sequence of store operations (list, add, acknowledge,
findRecentByDedupeKey): at its tracked position it survives as the
identical object — acknowledgedAt still the original timestamp — or has
been evicted by the capacity cap; in particular re-acknowledgement leaves
it unchanged, and nothing ever resets acknowledgedAt to null. -/
theorem C9_ack_one_way (ops : List StoreOp) (st : AlertStoreState) (i : Nat) (a : Alert)
    (t : Int) (ha : st.alerts[i]? = some a) (hk : a.acknowledgedAt = some t) :
    (ops.foldl applyOp st).alerts[ops.foldl shiftIdx i]? = some a ∨
    (ops.foldl applyOp st).alerts[ops.foldl shiftIdx i]? = none := by
  have hk' : a.acknowledgedAt.isSome = true := by
    rw [hk]
    rfl
  have main : ∀ rest : List StoreOp, ∀ st2 : AlertStoreState, ∀ j : Nat,
      st2.alerts[j]? = some a ∨ st2.alerts[j]? = none →
      (rest.foldl applyOp st2).alerts[rest.foldl shiftIdx j]? = some a ∨
      (rest.foldl applyOp st2).alerts[rest.foldl shiftIdx j]? = none := by
    intro rest
    induction rest with
    | nil => exact fun st2 j h => h
    | cons op tail ih =>
      exact fun st2 j h => ih (applyOp st2 op) (shiftIdx j op) (applyOp_tracked st2 op j a hk' h)
  exact main ops st i (Or.inl ha)

/-- Witness for C9: an acknowledged alert tracked through a
re-acknowledgement, an add, a list and a dedupe lookup. -/
theorem C9_witness :
    (exOps.foldl applyOp exAckedStore).alerts[exOps.foldl shiftIdx 0]? = some exAckedAlert ∨
    (exOps.foldl applyOp exAckedStore).alerts[exOps.foldl shiftIdx 0]? = none :=
  C9_ack_one_way exOps exAckedStore 0 exAckedAlert 5 (by decide) (by decide)

/-! Support lemmas for the detector claims. -/

/-- A running maximum never drops below its seed. -/
theorem le_foldl_max (l : List Candle) (b : ℚ) :
    b ≤ l.foldl (fun m x => max m x.high) b := by
  induction l generalizing b with
  | nil => exact le_refl b
  | cons c t ih => exact le_trans (le_max_left b c.high) (ih (max b c.high))

/-- The maximum high of a nonempty slice of positive-high candles is
positive. -/
theorem maxHighOf_pos (cs : List Candle) (hne : cs ≠ [])
    (hall : ∀ c ∈ cs, 0 < c.high) : 0 < maxHighOf cs := by
  match cs with
  | [] => exact absurd rfl hne
  | c :: t =>
    exact lt_of_lt_of_le (hall c (List.mem_cons_self c t)) (le_foldl_max t c.high)

/-- A running minimum over positive lows stays positive. -/
theorem foldl_min_pos (l : List Candle) (b : ℚ) (hb : 0 < b)
    (hall : ∀ c ∈ l, 0 < c.low) :
    0 < l.foldl (fun m x => min m x.low) b := by
  induction l generalizing b with
  | nil => exact hb
  | cons c t ih =>
    exact ih (min b c.low) (lt_min hb (hall c (List.mem_cons_self c t)))
      (fun x hx => hall x (List.mem_cons_of_mem c hx))

/-- The minimum low of a nonempty slice of positive-low candles is
positive. -/
theorem minLowOf_pos (cs : List Candle) (hne : cs ≠ [])
    (hall : ∀ c ∈ cs, 0 < c.low) : 0 < minLowOf cs := by
  match cs with
  | [] => exact absurd rfl hne
  | c :: t =>
    exact foldl_min_pos t c.low (hall c (List.mem_cons_self c t))
      (fun x hx => hall x (List.mem_cons_of_mem c hx))

/-- Every candle of a slice taken out of the window is a candle of the
window. -/
theorem mem_of_mem_slice (candles : List Candle) (d n : Nat) (c : Candle)
    (hc : c ∈ (candles.drop d).take n) : c ∈ candles :=
  List.mem_of_mem_drop (List.mem_of_mem_take hc)

/-- One breakout-search step keeps any recorded breakout level positive
when the window candles are valid. -/
theorem brStep_pos (wl ws : Bool) (candles : List Candle)
    (st : Option ℚ × Option SetupDirection) (i : Nat)
    (hvalid : ∀ c ∈ candles, ValidCandle c)
    (hst : ∀ l, st.1 = some l → 0 < l) :
    ∀ l, (brStep wl ws candles st i).1 = some l → 0 < l := by
  intro l hl
  simp only [brStep] at hl
  split at hl
  · exact hst l hl
  · split at hl
    · exact hst l hl
    · next c hc =>
      have hi : i < candles.length := by
        by_contra hge
        rw [List.getElem?_eq_none (Nat.le_of_not_lt hge)] at hc
        cases hc
      have hne : (candles.drop (i - 20)).take 20 ≠ [] := by
        refine List.ne_nil_of_length_pos ?_
        rw [List.length_take, List.length_drop]
        omega
      split at hl
      · simp only at hl
        obtain rfl : _ = l := Option.some.inj hl
        exact minLowOf_pos _ hne
          (fun x hx => ((hvalid x (mem_of_mem_slice _ _ _ _ hx))).1)
      · split at hl
        · simp only at hl
          obtain rfl : _ = l := Option.some.inj hl
          refine maxHighOf_pos _ hne (fun x hx => ?_)
          have hv := hvalid x (mem_of_mem_slice _ _ _ _ hx)
          exact lt_of_lt_of_le hv.1 (le_trans hv.2.2.2.1 hv.2.2.2.2)
        · exact hst l hl

/-- The breakout-search loop only records positive levels over valid
candles. -/
theorem brScan_pos (wl ws : Bool) (candles : List Candle) (idxs : List Nat)
    (hvalid : ∀ c ∈ candles, ValidCandle c) :
    ∀ l, (idxs.foldl (brStep wl ws candles) (none, none)).1 = some l → 0 < l := by
  have main : ∀ rest : List Nat, ∀ st : Option ℚ × Option SetupDirection,
      (∀ l, st.1 = some l → 0 < l) →
      ∀ l, (rest.foldl (brStep wl ws candles) st).1 = some l → 0 < l := by
    intro rest
    induction rest with
    | nil => exact fun st h => h
    | cons j tail ih =>
      exact fun st h => ih (brStep wl ws candles st j) (brStep_pos wl ws candles st j hvalid h)
  exact main idxs (none, none) (fun l h => by cases h)

/-- The retest tolerance is positive whenever the last close is. -/
theorem tolerance_pos (lastClose : ℚ) (atr : Option ℚ) (h : 0 < lastClose) :
    0 < tolerance lastClose atr :=
  lt_of_lt_of_le (mul_pos h (by norm_num)) (le_max_left _ _)

/-- The nullish-coalesced ATR is positive when the ATR is positive or
null with a positive fallback. -/
theorem atrGetD_pos (atr : Option ℚ) (fallback : ℚ)
    (hatr : atr = none ∨ ∃ a, atr = some a ∧ 0 < a) (hfb : 0 < fallback) :
    0 < atr.getD fallback := by
  rcases hatr with h | ⟨a, h, ha⟩ <;> rw [h]
  · exact hfb
  · exact ha

/-- The leverage-normalized target move is positive for a positive target
ROI. -/
theorem movePct_pos (ml roi : ℚ) (hroi : 0 < roi) : 0 < roi / max 1 ml / 100 := by
  have h1 : (0:ℚ) < max 1 ml := lt_of_lt_of_le one_pos (le_max_left 1 ml)
  exact div_pos (div_pos hroi h1) (by norm_num)

/-- A LONG take-profit from a positive target ROI sits above a positive
entry. -/
theorem tp_long (entry ml roi : ℚ) (he : 0 < entry) (hroi : 0 < roi) :
    entry < takeProfitFromTarget entry SetupDirection.LONG ml roi := by
  unfold takeProfitFromTarget
  have hm := movePct_pos ml roi hroi
  nlinarith

/-- A SHORT take-profit from a positive target ROI sits below a positive
entry. -/
theorem tp_short (entry ml roi : ℚ) (he : 0 < entry) (hroi : 0 < roi) :
    takeProfitFromTarget entry SetupDirection.SHORT ml roi < entry := by
  unfold takeProfitFromTarget
  have hm := movePct_pos ml roi hroi
  nlinarith

/-- clampScore lands in [0, 100]. -/
theorem clampScore_bounds (q : ℚ) : 0 ≤ clampScore q ∧ clampScore q ≤ 100 := by
  unfold clampScore
  exact ⟨le_max_left 0 _, max_le (by norm_num) (min_le_left 100 _)⟩

/-- A candidate of detectBreakoutRetest has entry and stop on the correct
sides and the take-profit beyond the entry, given valid candles, a
positive-or-null ATR and a positive target ROI. -/
theorem breakoutRetest_sides (input : DetectorInput)
    (hvalid : ∀ c ∈ input.candles, ValidCandle c)
    (hatr : input.indicators.atr14 = none ∨ ∃ a, input.indicators.atr14 = some a ∧ 0 < a)
    (hroi : 0 < input.targetRoiPct)
    (s : SetupCandidate) (hs : s ∈ detectBreakoutRetest input) :
    (s.direction = SetupDirection.LONG → s.stopLoss < s.entry ∧ s.entry < s.takeProfit) ∧
    (s.direction = SetupDirection.SHORT → s.entry < s.stopLoss ∧ s.takeProfit < s.entry) := by
  simp only [detectBreakoutRetest] at hs
  split at hs
  · simp at hs
  · split at hs
    · simp at hs
    · split at hs
      · simp at hs
      · next current hcur =>
        have hcurmem : current ∈ input.candles := List.mem_of_mem_getLast? hcur
        have hvc := hvalid current hcurmem
        have hclose : 0 < current.close := lt_of_lt_of_le hvc.1 hvc.2.2.2.1
        have htol : 0 < tolerance current.close input.indicators.atr14 :=
          tolerance_pos _ _ hclose
        have hsd : 0 < (input.indicators.atr14.getD
            (tolerance current.close input.indicators.atr14)) * 1.5 :=
          mul_pos (atrGetD_pos _ _ hatr htol) (by norm_num)
        split at hs
        · next lvl dir heq =>
          have hlvl : 0 < lvl := brScan_pos _ _ input.candles _ hvalid lvl (by rw [heq])
          split at hs
          · simp at hs
          · cases dir with
            | LONG =>
              split at hs
              · simp at hs
              · rw [List.mem_singleton] at hs
                subst hs
                refine ⟨fun _ => ⟨?_, ?_⟩, fun hh => by simp at hh⟩
                · simp only
                  linarith
                · simp only
                  exact tp_long lvl input.maxLeverage input.targetRoiPct hlvl hroi
            | SHORT =>
              split at hs
              · simp at hs
              · rw [List.mem_singleton] at hs
                subst hs
                refine ⟨fun hh => by simp at hh, fun _ => ⟨?_, ?_⟩⟩
                · simp only
                  linarith
                · simp only
                  exact tp_short lvl input.maxLeverage input.targetRoiPct hlvl hroi
        · simp at hs

/-- A candidate of detectTrendPullback has entry and stop on the correct
sides and the take-profit beyond the entry, under the same hypotheses. -/
theorem trendPullback_sides (input : DetectorInput)
    (hvalid : ∀ c ∈ input.candles, ValidCandle c)
    (hatr : input.indicators.atr14 = none ∨ ∃ a, input.indicators.atr14 = some a ∧ 0 < a)
    (hroi : 0 < input.targetRoiPct)
    (s : SetupCandidate) (hs : s ∈ detectTrendPullback input) :
    (s.direction = SetupDirection.LONG → s.stopLoss < s.entry ∧ s.entry < s.takeProfit) ∧
    (s.direction = SetupDirection.SHORT → s.entry < s.stopLoss ∧ s.takeProfit < s.entry) := by
  simp only [detectTrendPullback] at hs
  split at hs
  · simp at hs
  · split at hs
    · simp at hs
    · next htrg =>
      split at hs
      · next current prev hcur hprev =>
        have hcm : current ∈ input.candles := List.getElem?_mem hcur
        have hvc := hvalid current hcm
        have hclose : 0 < current.close := lt_of_lt_of_le hvc.1 hvc.2.2.2.1
        have hsd : 0 < input.indicators.atr14.getD
            (tolerance current.close input.indicators.atr14) * 1.2 :=
          mul_pos (atrGetD_pos _ _ hatr (tolerance_pos _ _ hclose)) (by norm_num)
        split at hs
        · next sma20v sma50v h20 h50 =>
          split at hs
          · simp at hs
          · rcases not_not.mp htrg with hU | hD
            · rw [hU] at hs
              simp at hs
              obtain ⟨-, rfl⟩ := hs
              refine ⟨fun _ => ⟨?_, ?_⟩, fun hh => by simp at hh⟩
              · simp only
                have hlc : current.low ≤ current.close := hvc.2.2.2.1
                linarith
              · simp only
                exact tp_long current.close _ _ hclose hroi
            · rw [hD] at hs
              simp at hs
              obtain ⟨-, rfl⟩ := hs
              refine ⟨fun hh => by simp at hh, fun _ => ⟨?_, ?_⟩⟩
              · simp only
                have hch : current.close ≤ current.high := hvc.2.2.2.2
                linarith
              · simp only
                exact tp_short current.close _ _ hclose hroi
        · simp at hs
      · simp at hs

/-- A candidate of detectContinuation has entry and stop on the correct
sides and the take-profit beyond the entry, under the same hypotheses. -/
theorem continuation_sides (input : DetectorInput)
    (hvalid : ∀ c ∈ input.candles, ValidCandle c)
    (hatr : input.indicators.atr14 = none ∨ ∃ a, input.indicators.atr14 = some a ∧ 0 < a)
    (hroi : 0 < input.targetRoiPct)
    (s : SetupCandidate) (hs : s ∈ detectContinuation input) :
    (s.direction = SetupDirection.LONG → s.stopLoss < s.entry ∧ s.entry < s.takeProfit) ∧
    (s.direction = SetupDirection.SHORT → s.entry < s.stopLoss ∧ s.takeProfit < s.entry) := by
  simp only [detectContinuation] at hs
  split at hs
  · simp at hs
  · split at hs
    · simp at hs
    · next htrg =>
      split at hs
      · simp at hs
      · next current hcur =>
        have hcm : current ∈ input.candles := List.mem_of_mem_getLast? hcur
        have hvc := hvalid current hcm
        have hclose : 0 < current.close := lt_of_lt_of_le hvc.1 hvc.2.2.2.1
        have hsd : 0 < input.indicators.atr14.getD (current.close * 0.002) * 1.8 :=
          mul_pos (atrGetD_pos _ _ hatr (mul_pos hclose (by norm_num))) (by norm_num)
        split at hs
        · next sma20v sma50v h20 h50 =>
          split at hs
          · simp at hs
          · rcases not_not.mp htrg with hU | hD
            · rw [hU] at hs
              simp at hs
              obtain ⟨-, -, -, rfl⟩ := hs
              refine ⟨fun _ => ⟨?_, ?_⟩, fun hh => by simp at hh⟩
              · simp only
                linarith
              · simp only
                exact tp_long current.close _ _ hclose hroi
            · rw [hD] at hs
              simp at hs
              obtain ⟨-, -, -, rfl⟩ := hs
              refine ⟨fun hh => by simp at hh, fun _ => ⟨?_, ?_⟩⟩
              · simp only
                linarith
              · simp only
                exact tp_short current.close _ _ hclose hroi
        · simp at hs

/-- Claim C1 as stated is false: with atr14 = 0 (explicitly allowed by the
claim) the nullish-coalescing fallback is skipped and the stop distance is
0 × 1.5 = 0, so detectBreakoutRetest emits a LONG candidate whose stopLoss
equals its entry, violating entry > stopLoss. -/
theorem C1_counterexample :
    exC1cand ∈ detectBreakoutRetest exC1input ∧
    exC1input.indicators.atr14 = some 0 ∧
    exC1cand.direction = SetupDirection.LONG ∧
    ¬ exC1cand.stopLoss < exC1cand.entry := by
  decide

/-- Claim C1 (amended): over OHLC-consistent candle windows with positive
prices, an atr14 that is null or positive, and a positive targetRoiPct,
every candidate emitted by any of the three detectors satisfies
entry > stopLoss and takeProfit > entry when LONG, and the mirrored strict
inequalities when SHORT. -/
theorem C1_amended (input : DetectorInput)
    (hvalid : ∀ c ∈ input.candles, ValidCandle c)
    (hatr : input.indicators.atr14 = none ∨ ∃ a, input.indicators.atr14 = some a ∧ 0 < a)
    (hroi : 0 < input.targetRoiPct)
    (s : SetupCandidate)
    (hs : s ∈ detectBreakoutRetest input ∨ s ∈ detectTrendPullback input ∨
      s ∈ detectContinuation input) :
    (s.direction = SetupDirection.LONG → s.stopLoss < s.entry ∧ s.entry < s.takeProfit) ∧
    (s.direction = SetupDirection.SHORT → s.entry < s.stopLoss ∧ s.takeProfit < s.entry) := by
  rcases hs with h | h | h
  · exact breakoutRetest_sides input hvalid hatr hroi s h
  · exact trendPullback_sides input hvalid hatr hroi s h
  · exact continuation_sides input hvalid hatr hroi s h

/-- detectBreakoutRetest emits nothing or exactly one candidate, whose
strategy is BREAKOUT_RETEST and whose score is clamped. -/
theorem detectBreakoutRetest_cases (input : DetectorInput) :
    detectBreakoutRetest input = [] ∨
    ∃ s, detectBreakoutRetest input = [s] ∧ s.strategy = SetupStrategy.BREAKOUT_RETEST ∧
      ∃ q, s.score = clampScore q := by
  simp only [detectBreakoutRetest]
  split
  · exact Or.inl rfl
  split
  · exact Or.inl rfl
  split
  · exact Or.inl rfl
  split
  case _ lvl dir heq =>
    split
    · exact Or.inl rfl
    cases dir
    · split
      · exact Or.inl rfl
      · exact Or.inr ⟨_, rfl, rfl, _, rfl⟩
    · split
      · exact Or.inl rfl
      · exact Or.inr ⟨_, rfl, rfl, _, rfl⟩
  case _ =>
    exact Or.inl rfl

/-- detectTrendPullback emits nothing or exactly one candidate, whose
strategy is TREND_PULLBACK and whose score is clamped. -/
theorem detectTrendPullback_cases (input : DetectorInput) :
    detectTrendPullback input = [] ∨
    ∃ s, detectTrendPullback input = [s] ∧ s.strategy = SetupStrategy.TREND_PULLBACK ∧
      ∃ q, s.score = clampScore q := by
  simp only [detectTrendPullback]
  repeat' first
    | exact Or.inl rfl
    | exact Or.inr ⟨_, rfl, rfl, _, rfl⟩
    | split

/-- detectContinuation emits nothing or exactly one candidate, whose
strategy is CONTINUATION and whose score is clamped. -/
theorem detectContinuation_cases (input : DetectorInput) :
    detectContinuation input = [] ∨
    ∃ s, detectContinuation input = [s] ∧ s.strategy = SetupStrategy.CONTINUATION ∧
      ∃ q, s.score = clampScore q := by
  have main : ∀ out : List SetupCandidate, detectContinuation input = out →
      out = [] ∨ ∃ s, out = [s] ∧ s.strategy = SetupStrategy.CONTINUATION ∧
        ∃ q, s.score = clampScore q := by
    intro out h0
    simp only [detectContinuation] at h0
    repeat' first
      | exact Or.inl h0.symm
      | exact Or.inr ⟨_, h0.symm, rfl, _, rfl⟩
      | split at h0
  exact main (detectContinuation input) rfl

/-- Witness for the amended C1: a concrete emitting input with a positive
ATR. -/
theorem C1_witness :
    (∀ c ∈ exWitnessInput.candles, ValidCandle c) ∧
    exWitnessInput.indicators.atr14 = some 0.01 ∧
    exWitnessCand ∈ detectBreakoutRetest exWitnessInput ∧
    exWitnessCand.direction = SetupDirection.LONG ∧
    exWitnessCand.stopLoss < exWitnessCand.entry ∧
    exWitnessCand.entry < exWitnessCand.takeProfit := by
  have hmem : exWitnessCand ∈ detectBreakoutRetest exWitnessInput := by decide
  have h := C1_amended exWitnessInput (by decide)
    (Or.inr ⟨0.01, rfl, by norm_num⟩) (by decide) exWitnessCand (Or.inl hmem)
  exact ⟨by decide, rfl, hmem, by decide, (h.1 (by decide)).1, (h.1 (by decide)).2⟩

/-- Claim C7 as stated is false: detectBreakoutRetest confirms a LONG
retest whose closing price 9.99 is strictly below the breakout level 10
(the code only requires the close to be within tolerance below the
level), with the candle color correct. -/
theorem C7_counterexample :
    exC7cand ∈ detectBreakoutRetest exC7input ∧
    exC7input.candles.getLast? = some retestBelowCandle ∧
    exC7cand.direction = SetupDirection.LONG ∧
    retestBelowCandle.close < exC7cand.entry ∧
    retestBelowCandle.opn ≤ retestBelowCandle.close := by
  decide

/-- Claim C7 (amended): whenever detectBreakoutRetest emits a candidate,
the current bar's close is within one tolerance of the correct side of the
breakout level (close ≥ level − tol for LONG, close ≤ level + tol for
SHORT) and the candle color is correct (bullish close for LONG, bearish
for SHORT). -/
theorem C7_amended (input : DetectorInput) (s : SetupCandidate)
    (hs : s ∈ detectBreakoutRetest input) (cur : Candle)
    (hcur : input.candles.getLast? = some cur) :
    (s.direction = SetupDirection.LONG →
      s.entry - tolerance cur.close input.indicators.atr14 ≤ cur.close ∧
      cur.opn ≤ cur.close) ∧
    (s.direction = SetupDirection.SHORT →
      cur.close ≤ s.entry + tolerance cur.close input.indicators.atr14 ∧
      cur.close ≤ cur.opn) := by
  simp only [detectBreakoutRetest] at hs
  split at hs
  · simp at hs
  · split at hs
    · simp at hs
    · split at hs
      · simp at hs
      · next current hcur2 =>
        obtain rfl : current = cur := by
          rw [hcur] at hcur2
          exact (Option.some.inj hcur2).symm
        split at hs
        · next lvl dir heq =>
          split at hs
          · simp at hs
          · cases dir with
            | LONG =>
              split at hs
              · simp at hs
              · next hok =>
                rw [List.mem_singleton] at hs
                subst hs
                have hg := of_decide_eq_true (not_not.mp hok)
                refine ⟨fun _ => ⟨?_, hg.2.2.2⟩, fun hh => by simp at hh⟩
                simp only
                linarith [hg.2.1]
            | SHORT =>
              split at hs
              · simp at hs
              · next hok =>
                rw [List.mem_singleton] at hs
                subst hs
                have hg := of_decide_eq_true (not_not.mp hok)
                refine ⟨fun hh => by simp at hh, fun _ => ⟨?_, hg.2.2.2⟩⟩
                simp only
                linarith [hg.2.1]
        · simp at hs

/-- Witness for the amended C7 at the concrete emitting input. -/
theorem C7_witness :
    exWitnessCand.entry - tolerance retestCandle.close exWitnessInput.indicators.atr14 ≤
      retestCandle.close ∧
    retestCandle.opn ≤ retestCandle.close := by
  have h := C7_amended exWitnessInput exWitnessCand (by decide) retestCandle (by decide)
  exact h.1 (by decide)

/-- Claim C8: every candidate emitted by any detector has a score in
[0, 100] (the score is clamped at construction). -/
theorem C8_score_bounds (input : DetectorInput) (s : SetupCandidate)
    (hs : s ∈ detectBreakoutRetest input ∨ s ∈ detectTrendPullback input ∨
      s ∈ detectContinuation input) :
    0 ≤ s.score ∧ s.score ≤ 100 := by
  have hshape : ∃ q, s.score = clampScore q := by
    rcases hs with h | h | h
    · rcases detectBreakoutRetest_cases input with he | ⟨x, he, -, hq⟩ <;> rw [he] at h
      · simp at h
      · rw [List.mem_singleton] at h
        subst h
        exact hq
    · rcases detectTrendPullback_cases input with he | ⟨x, he, -, hq⟩ <;> rw [he] at h
      · simp at h
      · rw [List.mem_singleton] at h
        subst h
        exact hq
    · rcases detectContinuation_cases input with he | ⟨x, he, -, hq⟩ <;> rw [he] at h
      · simp at h
      · rw [List.mem_singleton] at h
        subst h
        exact hq
  obtain ⟨q, hq⟩ := hshape
  rw [hq]
  exact clampScore_bounds q

/-- Witness for C8 at the concrete emitting input. -/
theorem C8_witness :
    exWitnessCand ∈ detectBreakoutRetest exWitnessInput ∧
    0 ≤ exWitnessCand.score ∧ exWitnessCand.score ≤ 100 := by
  have hmem : exWitnessCand ∈ detectBreakoutRetest exWitnessInput := by decide
  exact ⟨hmem, C8_score_bounds exWitnessInput exWitnessCand (Or.inl hmem)⟩

/-- Candidates of different strategies have different dedup keys. -/
theorem dedupKey_ne_of_strategy (x y : SetupCandidate) (h : x.strategy ≠ y.strategy) :
    dedupKey x ≠ dedupKey y := by
  intro he
  exact h (congrArg (fun k => k.2.2.1) he)

/-- Inserting a fresh key into the dedup map appends it. -/
theorem dedupStep_newKey
    (m : List ((String × Timeframe × SetupStrategy × SetupDirection) × SetupCandidate))
    (s : SetupCandidate) (h : ∀ p ∈ m, p.1 ≠ dedupKey s) :
    dedupStep m s = m ++ [(dedupKey s, s)] := by
  have hf : m.find? (fun p => decide (p.1 = dedupKey s)) = none :=
    List.find?_eq_none.mpr (fun p hp => by simp [h p hp])
  simp only [dedupStep, hf]

/-- Over pairwise-distinct keys the whole dedup fold is just an ordered
re-keying: nothing is discarded or replaced. -/
theorem foldl_dedupStep_distinct (setups : List SetupCandidate)
    (hp : setups.Pairwise (fun x y => dedupKey x ≠ dedupKey y)) :
    setups.foldl dedupStep [] = setups.map (fun s => (dedupKey s, s)) := by
  have main : ∀ l : List SetupCandidate,
      l.Pairwise (fun x y => dedupKey x ≠ dedupKey y) →
      ∀ m, (∀ p ∈ m, ∀ x ∈ l, p.1 ≠ dedupKey x) →
      l.foldl dedupStep m = m ++ l.map (fun s => (dedupKey s, s)) := by
    intro l
    induction l with
    | nil =>
      intro _ m _
      simp
    | cons s t ih =>
      intro hpair m hm
      have hpair' := List.pairwise_cons.mp hpair
      have h1 : dedupStep m s = m ++ [(dedupKey s, s)] :=
        dedupStep_newKey m s (fun p hp => hm p hp s (List.mem_cons_self s t))
      have hcond : ∀ p ∈ m ++ [(dedupKey s, s)], ∀ x ∈ t, p.1 ≠ dedupKey x := by
        intro p hp x hx
        rcases List.mem_append.mp hp with hpm | hps
        · exact hm p hpm x (List.mem_cons_of_mem s hx)
        · rw [List.mem_singleton] at hps
          subst hps
          exact hpair'.1 x hx
      rw [List.foldl_cons, h1, ih hpair'.2 (m ++ [(dedupKey s, s)]) hcond, List.map_cons]
      simp
  exact main setups hp [] (by simp)

/-- A list that is empty or a singleton has pairwise-distinct keys. -/
theorem pairwise_of_short (l : List SetupCandidate) (h : l = [] ∨ ∃ a, l = [a]) :
    l.Pairwise (fun x y => dedupKey x ≠ dedupKey y) := by
  rcases h with rfl | ⟨a, rfl⟩ <;> simp

/-- A list that is empty or a singleton has length at most one. -/
theorem length_of_short (l : List SetupCandidate) (h : l = [] ∨ ∃ a, l = [a]) :
    l.length ≤ 1 := by
  rcases h with rfl | ⟨a, rfl⟩ <;> simp

/-- Claim C10: each detector returns at most one candidate, runDetectors
is exactly the concatenation of the three detector outputs (so at most
three candidates), and their dedup keys are pairwise distinct — the
highest-score deduplication step never discards a candidate. -/
theorem C10_dedup_no_discard (input : DetectorInput) :
    (detectBreakoutRetest input).length ≤ 1 ∧
    (detectTrendPullback input).length ≤ 1 ∧
    (detectContinuation input).length ≤ 1 ∧
    runDetectors input =
      detectBreakoutRetest input ++ detectTrendPullback input ++ detectContinuation input ∧
    List.Pairwise (fun x y => dedupKey x ≠ dedupKey y) (runDetectors input) ∧
    (runDetectors input).length ≤ 3 := by
  have hbr := detectBreakoutRetest_cases input
  have htp := detectTrendPullback_cases input
  have hco := detectContinuation_cases input
  have hbrs : detectBreakoutRetest input = [] ∨ ∃ a, detectBreakoutRetest input = [a] := by
    rcases hbr with h | ⟨x, h, -, -⟩
    exacts [Or.inl h, Or.inr ⟨x, h⟩]
  have htps : detectTrendPullback input = [] ∨ ∃ a, detectTrendPullback input = [a] := by
    rcases htp with h | ⟨x, h, -, -⟩
    exacts [Or.inl h, Or.inr ⟨x, h⟩]
  have hcos : detectContinuation input = [] ∨ ∃ a, detectContinuation input = [a] := by
    rcases hco with h | ⟨x, h, -, -⟩
    exacts [Or.inl h, Or.inr ⟨x, h⟩]
  have hstr1 : ∀ x ∈ detectBreakoutRetest input,
      x.strategy = SetupStrategy.BREAKOUT_RETEST := by
    rcases hbr with h | ⟨x, h, hstrat, -⟩ <;> rw [h]
    · simp
    · intro y hy
      rw [List.mem_singleton] at hy
      exact hy ▸ hstrat
  have hstr2 : ∀ x ∈ detectTrendPullback input,
      x.strategy = SetupStrategy.TREND_PULLBACK := by
    rcases htp with h | ⟨x, h, hstrat, -⟩ <;> rw [h]
    · simp
    · intro y hy
      rw [List.mem_singleton] at hy
      exact hy ▸ hstrat
  have hstr3 : ∀ x ∈ detectContinuation input,
      x.strategy = SetupStrategy.CONTINUATION := by
    rcases hco with h | ⟨x, h, hstrat, -⟩ <;> rw [h]
    · simp
    · intro y hy
      rw [List.mem_singleton] at hy
      exact hy ▸ hstrat
  have hpair : (detectBreakoutRetest input ++ detectTrendPullback input ++
      detectContinuation input).Pairwise (fun x y => dedupKey x ≠ dedupKey y) := by
    refine List.pairwise_append.mpr ⟨List.pairwise_append.mpr
      ⟨pairwise_of_short _ hbrs, pairwise_of_short _ htps, ?_⟩,
      pairwise_of_short _ hcos, ?_⟩
    · intro x hx y hy
      refine dedupKey_ne_of_strategy x y ?_
      rw [hstr1 x hx, hstr2 y hy]
      decide
    · intro x hx y hy
      rcases List.mem_append.mp hx with hx1 | hx2
      · refine dedupKey_ne_of_strategy x y ?_
        rw [hstr1 x hx1, hstr3 y hy]
        decide
      · refine dedupKey_ne_of_strategy x y ?_
        rw [hstr2 x hx2, hstr3 y hy]
        decide
  have heq : runDetectors input =
      detectBreakoutRetest input ++ detectTrendPullback input ++ detectContinuation input := by
    simp only [runDetectors]
    rw [foldl_dedupStep_distinct _ hpair, List.map_map]
    have hid : (Prod.snd ∘ fun s : SetupCandidate => (dedupKey s, s)) = id := rfl
    rw [hid, List.map_id]
  refine ⟨length_of_short _ hbrs, length_of_short _ htps, length_of_short _ hcos, heq,
    ?_, ?_⟩
  · rw [heq]
    exact hpair
  · rw [heq]
    simp only [List.length_append]
    have g1 := length_of_short _ hbrs
    have g2 := length_of_short _ htps
    have g3 := length_of_short _ hcos
    omega

end CryptoAdvisor
